import Mathlib

/-!
# Pong: a shallow embedding of `src/pong.c`

The game state of `struct pong`, the key dispatch tables, the physics step
`pong_physic`, the per-tick body of `pong_run` and the `-f` case of
`pong_parse_args`, followed by the properties settled about them.

Conventions of the embedding:

* `double` is read as a real number (`ℝ`), `cos`, `sin`, `asin`, `acos` and
  `M_PI` as `Real.cos`, `Real.sin`, `Real.arcsin`, `Real.arccos`, `Real.pi`;
  in the `-f` case of `pong_parse_args`, where the doubles come from a
  division of integers, they are rational numbers (`ℚ`) and the case computes;
* `unsigned` is a natural number reduced modulo `2 ^ 32` after an increment;
* an array of two elements is a function on `Fin 2`, an assignment to one
  element is `Function.update`;
* libc `random()` is an oracle: an infinite stream of draws and the number of
  draws made so far, both carried in the state;
* the X11 connection is reduced to what the game logic reads from it: the
  keysyms of each keycode and the `WM_DELETE_WINDOW` atom.
-/

namespace PongGame

/-! ## Constants (pong.c, lines 36-52) -/

def KEYSYM_SPECIAL_NOSYMBOL : Nat := 0x00
def KEYSYM_LATIN_1_P : Nat := 'p'.toNat
def KEYSYM_LATIN_1_Q : Nat := 'q'.toNat
def KEYSYM_LATIN_1_R : Nat := 'r'.toNat
def KEYSYM_LATIN_1_S : Nat := 's'.toNat
def KEYSYM_LATIN_1_Z : Nat := 'z'.toNat
def KEYSYM_FUNCTION_UP : Nat := 0xFF52
def KEYSYM_FUNCTION_DOWN : Nat := 0xFF54

def PLAYER_1 : Fin 2 := 0
def PLAYER_2 : Fin 2 := 1

def ABSCISSA : Fin 2 := 0
def ORDINATE : Fin 2 := 1

/-- Number of values of an `unsigned`. -/
def UINT_RANGE : Nat := 4294967296

/-- Number of values `random()` can return: it yields `0 .. 2^31 - 1`. -/
def RANDOM_RANGE : Nat := 2147483648

/-- The `struct timespec` of libc. -/
structure timespec where
  tv_sec : Int
  tv_nsec : Int
deriving DecidableEq, Repr

/-- The `struct pong` of pong.c, lines 67-85, with the parts of the environment
the game logic reads: the keyboard mapping and the `random()` oracle. -/
structure pong where
  /-- keysyms of a keycode: the row of `keyboard_mapping` for `detail` -/
  keyboard_mapping : Nat → List Nat
  wm_delete_window : Nat
  offset : Fin 2 → Int
  square : Nat
  running : Bool
  paused : Bool
  players_score : Fin 2 → Nat
  players_position : Fin 2 → ℝ
  players_speed : Fin 2 → ℝ
  ball_position : Fin 2 → ℝ
  ball_angle : ℝ
  /-- the successive values `random()` will return (each reduced into its range) -/
  random_stream : Nat → Nat
  /-- how many times `random()` has been called -/
  random_calls : Nat

/-- The `struct pong_key_event` of pong.c, lines 87-90. -/
structure pong_key_event where
  keysym : Nat
  handler : pong → pong

noncomputable section

def PLAYER_SPEED : ℝ := 1.0
def BALL_SPEED : ℝ := 0.7

/-- The macro `clamp` (pong.c, line 56). -/
def clamp (value min max : ℝ) : ℝ :=
  if value < min then min else (if value > max then max else value)

/-- The macro `contains` (pong.c, line 58). -/
def contains (min max value : ℝ) : Bool :=
  decide (value ≥ min) && decide (value ≤ max)

/-- The libc call `random()`: the next draw, in `0 .. 2^31 - 1`, and the state
after the call. -/
def random (p : pong) : Nat × pong :=
  (p.random_stream p.random_calls % RANDOM_RANGE,
   { p with random_calls := p.random_calls + 1 })

/-- The function `pong_ball_angle` (pong.c, lines 92-95). -/
def pong_ball_angle (p : pong) : ℝ × pong :=
  let r := random p
  (2 * Real.pi * (r.1 : ℝ) / 2147483647.0, r.2)

/-- The function `pong_reset` (pong.c, lines 97-110). -/
def pong_reset (p : pong) : pong :=
  let p := { p with running := true }
  let p := { p with paused := true }
  let p := { p with players_score := Function.update p.players_score PLAYER_1 0 }
  let p := { p with players_score := Function.update p.players_score PLAYER_2 0 }
  let p := { p with players_position := Function.update p.players_position PLAYER_1 0.0 }
  let p := { p with players_position := Function.update p.players_position PLAYER_2 0.0 }
  let p := { p with players_speed := Function.update p.players_speed PLAYER_1 0.0 }
  let p := { p with players_speed := Function.update p.players_speed PLAYER_2 0.0 }
  let p := { p with ball_position := Function.update p.ball_position ABSCISSA 0.0 }
  let p := { p with ball_position := Function.update p.ball_position ORDINATE 0.0 }
  let a := pong_ball_angle p
  { a.2 with ball_angle := a.1 }

/-- The function `pong_pause` (pong.c, lines 256-259). -/
def pong_pause (p : pong) : pong :=
  { p with paused := !p.paused }

/-- The function `pong_quit` (pong.c, lines 261-264). -/
def pong_quit (p : pong) : pong :=
  { p with running := false }

/-- The function `pong_player1_up` (pong.c, lines 266-269). -/
def pong_player1_up (p : pong) : pong :=
  { p with players_speed :=
      Function.update p.players_speed PLAYER_1 (p.players_speed PLAYER_1 - PLAYER_SPEED) }

/-- The function `pong_player1_down` (pong.c, lines 271-274). -/
def pong_player1_down (p : pong) : pong :=
  { p with players_speed :=
      Function.update p.players_speed PLAYER_1 (p.players_speed PLAYER_1 + PLAYER_SPEED) }

/-- The function `pong_player2_up` (pong.c, lines 276-279). -/
def pong_player2_up (p : pong) : pong :=
  { p with players_speed :=
      Function.update p.players_speed PLAYER_2 (p.players_speed PLAYER_2 - PLAYER_SPEED) }

/-- The function `pong_player2_down` (pong.c, lines 281-284). -/
def pong_player2_down (p : pong) : pong :=
  { p with players_speed :=
      Function.update p.players_speed PLAYER_2 (p.players_speed PLAYER_2 + PLAYER_SPEED) }

/-- The table `key_presses` (pong.c, lines 286-295); the sentinel entry has a
null handler, which is never called. -/
def key_presses : List pong_key_event :=
  [ ⟨KEYSYM_LATIN_1_P, pong_pause⟩,
    ⟨KEYSYM_LATIN_1_Q, pong_quit⟩,
    ⟨KEYSYM_LATIN_1_R, pong_reset⟩,
    ⟨KEYSYM_LATIN_1_S, pong_player1_down⟩,
    ⟨KEYSYM_LATIN_1_Z, pong_player1_up⟩,
    ⟨KEYSYM_FUNCTION_UP, pong_player2_up⟩,
    ⟨KEYSYM_FUNCTION_DOWN, pong_player2_down⟩,
    ⟨KEYSYM_SPECIAL_NOSYMBOL, id⟩ ]

/-- The table `key_releases` (pong.c, lines 297-303). -/
def key_releases : List pong_key_event :=
  [ ⟨KEYSYM_LATIN_1_S, pong_player1_up⟩,
    ⟨KEYSYM_LATIN_1_Z, pong_player1_down⟩,
    ⟨KEYSYM_FUNCTION_UP, pong_player2_down⟩,
    ⟨KEYSYM_FUNCTION_DOWN, pong_player2_up⟩,
    ⟨KEYSYM_SPECIAL_NOSYMBOL, id⟩ ]

/-- The search of `pong_events_key` (pong.c, lines 311-322): the first entry of
`handlers`, before the sentinel, whose keysym is one of `keysyms`. -/
def pong_events_key_find (keysyms : List Nat) : List pong_key_event → Option pong_key_event
  | [] => none
  | h :: handlers =>
    if h.keysym = KEYSYM_SPECIAL_NOSYMBOL then none
    else if keysyms.contains h.keysym then some h
    else pong_events_key_find keysyms handlers

/-- The function `pong_events_key` (pong.c, lines 305-323): `detail` is the
keycode of the event. -/
def pong_events_key (p : pong) (detail : Nat) (handlers : List pong_key_event) : pong :=
  match pong_events_key_find (p.keyboard_mapping detail) handlers with
  | some h => h.handler p
  | none => p

/-- The bounds `players_bound` of `pong_player_collides_ball` (lines 385-390). -/
def players_bound (player : Fin 2) : ℝ × ℝ :=
  if player = 0 then (-0.8, -0.75) else (0.7, 0.75)

/-- The function `pong_player_collides_ball` (pong.c, lines 383-398). -/
def pong_player_collides_ball (p : pong) (player : Fin 2) : Bool :=
  contains (players_bound player).1 (players_bound player).2 (p.ball_position ABSCISSA)
    && contains (p.players_position player - 0.125) (p.players_position player + 0.125)
        (p.ball_position ORDINATE)
    && xor (decide (Real.cos p.ball_angle < 0.0)) (decide (player ≠ 0))

/-- The function `pong_player_scores` (pong.c, lines 400-407). -/
def pong_player_scores (p : pong) (player : Fin 2) : pong :=
  let p := { p with
    players_score := Function.update p.players_score player
      ((p.players_score player + 1) % UINT_RANGE) }
  let p := { p with ball_position := Function.update p.ball_position ABSCISSA 0 }
  let p := { p with ball_position := Function.update p.ball_position ORDINATE 0 }
  let a := pong_ball_angle p
  { a.2 with ball_angle := a.1 }

/-- The angle after a wall reflection (pong.c, lines 420-421). -/
def wall_reflection (angle : ℝ) : ℝ :=
  let raw := Real.arcsin (-Real.sin angle)
  if Real.cos angle < 0.0 then Real.pi - raw else raw

/-- The angle after a paddle reflection (pong.c, lines 425-426). -/
def paddle_reflection (angle : ℝ) : ℝ :=
  let raw := Real.arccos (-Real.cos angle)
  if Real.sin angle < 0.0 then 2 * Real.pi - raw else raw

/-- The value `elapsed` of `pong_physic` (pong.c, line 411). -/
def elapsed_seconds (duration : timespec) : ℝ :=
  (duration.tv_sec : ℝ) + (duration.tv_nsec : ℝ) / 1000000000.0

/-- Lines 413-417 of `pong_physic`: the paddles and the ball are moved. -/
def pong_physic_integrate (p : pong) (elapsed : ℝ) : pong :=
  let p := { p with
    players_position := Function.update p.players_position PLAYER_1
      (clamp (p.players_position PLAYER_1 + p.players_speed PLAYER_1 * elapsed) (-0.9) 0.9) }
  let p := { p with
    players_position := Function.update p.players_position PLAYER_2
      (clamp (p.players_position PLAYER_2 + p.players_speed PLAYER_2 * elapsed) (-0.9) 0.9) }
  let p := { p with
    ball_position := Function.update p.ball_position ABSCISSA
      (p.ball_position ABSCISSA + BALL_SPEED * elapsed * Real.cos p.ball_angle) }
  { p with
    ball_position := Function.update p.ball_position ORDINATE
      (p.ball_position ORDINATE + BALL_SPEED * elapsed * Real.sin p.ball_angle) }

/-- Lines 419-422 of `pong_physic`: the ball bounces off the walls. -/
def pong_physic_walls (p : pong) : pong :=
  if p.ball_position ORDINATE ≤ -1.0 ∨ p.ball_position ORDINATE ≥ 0.95 then
    { p with ball_angle := wall_reflection p.ball_angle }
  else p

/-- Lines 424-431 of `pong_physic`: the ball bounces off a paddle, or a player
scores. -/
def pong_physic_players (p : pong) : pong :=
  if pong_player_collides_ball p PLAYER_1 || pong_player_collides_ball p PLAYER_2 then
    { p with ball_angle := paddle_reflection p.ball_angle }
  else if p.ball_position ABSCISSA ≤ -1.0 then
    pong_player_scores p PLAYER_2
  else if p.ball_position ABSCISSA ≥ 0.95 then
    pong_player_scores p PLAYER_1
  else p

/-- The function `pong_physic` (pong.c, lines 409-432). -/
def pong_physic (p : pong) (duration : timespec) : pong :=
  pong_physic_players (pong_physic_walls (pong_physic_integrate p (elapsed_seconds duration)))

/-- An event polled from the X11 connection, as `pong_events` tells them apart
(pong.c, lines 330-377). -/
inductive xcb_event where
  /-- `XCB_KEY_PRESS` of the keycode `detail` -/
  | key_press (detail : Nat)
  /-- `XCB_KEY_RELEASE` of the keycode `detail` -/
  | key_release (detail : Nat)
  /-- `XCB_CONFIGURE_NOTIFY` with the new size of the window (two `uint16_t`) -/
  | configure_notify (width height : Nat)
  /-- `XCB_CLIENT_MESSAGE` with its first 32-bit datum -/
  | client_message (data32_0 : Nat)
  /-- any other response type: the `switch` does nothing -/
  | ignored
  /-- response type 0: a warning is printed -/
  | error

/-- One iteration of the loop of `pong_events` (pong.c, lines 330-379). -/
def pong_events_handle (p : pong) : xcb_event → pong
  | .key_press detail => pong_events_key p detail key_presses
  | .key_release detail => pong_events_key p detail key_releases
  | .configure_notify width height =>
    if width < height then
      let p := { p with square := width }
      let p := { p with offset := Function.update p.offset 1 (((height : Int) - p.square) >>> 1) }
      { p with offset := Function.update p.offset 0 0 }
    else
      let p := { p with square := height }
      let p := { p with offset := Function.update p.offset 0 (((width : Int) - p.square) >>> 1) }
      { p with offset := Function.update p.offset 1 0 }
  | .client_message data32_0 =>
    if data32_0 = p.wm_delete_window then pong_quit p else p
  | .ignored => p
  | .error => p

/-- The function `pong_events` (pong.c, lines 325-381): `events` are the events
queued on the connection, polled until none is left. -/
def pong_events (p : pong) (events : List xcb_event) : pong :=
  events.foldl pong_events_handle p

/-- The body of the loop of `pong_run` (pong.c, lines 491-501) as far as the
game state goes: `pong_render` and `nanosleep` leave it as it is. -/
def pong_run_body (p : pong) (frame_duration : timespec) (events : List xcb_event) : pong :=
  let p := pong_events p events
  if p.paused = false then pong_physic p frame_duration else p

/-- The body of the loop of `pong_run` run once for each batch of queued
events of `ticks`. -/
def pong_run_bodies (p : pong) (frame_duration : timespec) (ticks : List (List xcb_event)) :
    pong :=
  ticks.foldl (fun q events => pong_run_body q frame_duration events) p

/-- The function `pong_physic` called `n` times with the same duration. -/
def pong_physic_times (p : pong) (duration : timespec) : Nat → pong
  | 0 => p
  | n + 1 => pong_physic (pong_physic_times p duration n) duration

end

/-! ## Command line (pong.c, lines 511-568) -/

/-- The fields of `struct pong_args` the game logic reads (pong.c, lines 60-65). -/
structure pong_args where
  frame_duration : timespec
  seed : Int
deriving DecidableEq, Repr

/-- The ways `pong_parse_args` ends the process with `errx`. -/
inductive fatal where
  | invalid_frequency
  | invalid_seed
deriving DecidableEq, Repr

/-- The initial value of `args` in `pong_parse_args` (pong.c, lines 513-521). -/
def pong_parse_args_init : pong_args :=
  { frame_duration := { tv_sec := 0, tv_nsec := 16666666 }, seed := 0 }

/-- Conversion of a `double` to an integer type in C: the fraction is dropped. -/
def double_to_integer (x : ℚ) : Int :=
  if 0 ≤ x then ⌊x⌋ else ⌈x⌉

/-- The case `'f'` of `pong_parse_args` (pong.c, lines 532-548). The call of
`strtoul` is taken by its results: `frequency` is the value it returns and
`endptr_nul` tells whether `*endptr` is the end of the argument. -/
def pong_parse_args_f (args : pong_args) (frequency : Nat) (endptr_nul : Bool) :
    Except fatal pong_args :=
  if endptr_nul = false ∨ frequency = 0 then
    .error fatal.invalid_frequency
  else
    let duration : ℚ := 1.0 / (frequency : ℚ)
    let tv_sec : Int := double_to_integer duration
    let tv_nsec : Int := double_to_integer (duration * 1000000000.0 - (tv_sec : ℚ))
    if tv_sec = 0 ∧ tv_nsec = 0 then
      .error fatal.invalid_frequency
    else
      .ok { args with frame_duration := { tv_sec := tv_sec, tv_nsec := tv_nsec } }

/-- Length of a frame in nanoseconds. -/
def timespec_nanoseconds (t : timespec) : Int :=
  t.tv_sec * 1000000000 + t.tv_nsec

/-! ## States and inputs of the examples, predicates of the properties -/

/-- The game and render variables after `pong_init` (pong.c, lines 112-120):
`pong_reset` on the fresh structure, whose former content is overwritten, then a
square of 500 pixels at offset 0. The arguments are what the X11 server and
`srandom` provide. -/
noncomputable def pong_init (keyboard_mapping : Nat → List Nat) (wm_delete_window : Nat)
    (random_stream : Nat → Nat) : pong :=
  let p := pong_reset
    { keyboard_mapping := keyboard_mapping
      wm_delete_window := wm_delete_window
      offset := fun _ => 0
      square := 0
      running := false
      paused := false
      players_score := fun _ => 0
      players_position := fun _ => 0
      players_speed := fun _ => 0
      ball_position := fun _ => 0
      ball_angle := 0
      random_stream := random_stream
      random_calls := 0 }
  let p := { p with offset := fun _ => 0 }
  { p with square := 500 }

/-- The default frame of `pong_parse_args`: 16666666 ns. -/
def default_frame : timespec := pong_parse_args_init.frame_duration

/-- A state of play: the ball is at `(x, y)` and travels at `angle`, the scores
are `score_1 : score_2`, the game is not paused; the rest is as `pong_init` left
it. -/
noncomputable def pong_in_play (x y angle : ℝ) (score_1 score_2 : Nat) : pong :=
  { pong_init (fun _ => []) 0 (fun _ => 0) with
    paused := false
    players_score := fun player => if player = 0 then score_1 else score_2
    ball_position := fun coordinate => if coordinate = 0 then x else y
    ball_angle := angle }

/-- The keysyms the tables `key_presses` and `key_releases` give a handler to. -/
def bound_keysyms : List Nat :=
  [KEYSYM_LATIN_1_P, KEYSYM_LATIN_1_Q, KEYSYM_LATIN_1_R, KEYSYM_LATIN_1_S, KEYSYM_LATIN_1_Z,
    KEYSYM_FUNCTION_UP, KEYSYM_FUNCTION_DOWN]

/-- A keyboard mapping in the manner of a QWERTY layout: keycode 39 is `s`/`S`
and keycode 33 is `p`/`P`, whatever else has no keysym. -/
def keyboard_mapping_sample (detail : Nat) : List Nat :=
  if detail = 39 then ['s'.toNat, 'S'.toNat]
  else if detail = 33 then ['p'.toNat, 'P'.toNat]
  else [0, 0]

/-- Whether the event is dispatched to `pong_pause` or to `pong_reset`: a key
press that `pong_events_key` resolves to the entry `p` or to the entry `r` of
`key_presses`. The table `key_releases` has neither. -/
noncomputable def calls_pause_or_reset (p : pong) : xcb_event → Bool
  | .key_press detail =>
    match pong_events_key_find (p.keyboard_mapping detail) key_presses with
    | some h => h.keysym == KEYSYM_LATIN_1_P || h.keysym == KEYSYM_LATIN_1_R
    | none => false
  | _ => false

/-- The state `q` has the ball, the paddles, the pause flag and the keyboard
mapping of the state `p`. -/
def same_play (q p : pong) : Prop :=
  q.ball_position = p.ball_position ∧ q.ball_angle = p.ball_angle
    ∧ q.players_position = p.players_position ∧ q.paused = p.paused
    ∧ q.keyboard_mapping = p.keyboard_mapping

/-- Two ticks of events on the sample keyboard: `s` is pressed and the window is
resized, then `s` is released and some other event comes. -/
def ticks_sample : List (List xcb_event) :=
  [[.key_press 39, .configure_notify 800 600], [.key_release 39, .ignored]]

/-- The state the straight shot starts from: the state of `pong_reset`, not
paused, the ball travelling at angle 0. -/
noncomputable def straight_shot_start (p : pong) : pong :=
  { pong_reset p with paused := false, ball_angle := 0 }

/-- The ball flies along the axis of abscissas: both paddles rest at 0, the
scores are `0 : 0`, the ball is at `(x, 0)` with the given angle and `random()`
has been called `calls` times. -/
def straight_flight (q : pong) (x angle : ℝ) (calls : Nat) : Prop :=
  q.players_position PLAYER_1 = 0 ∧ q.players_position PLAYER_2 = 0
    ∧ q.players_speed PLAYER_1 = 0 ∧ q.players_speed PLAYER_2 = 0
    ∧ q.players_score PLAYER_1 = 0 ∧ q.players_score PLAYER_2 = 0
    ∧ q.ball_position ABSCISSA = x ∧ q.ball_position ORDINATE = 0
    ∧ q.ball_angle = angle ∧ q.random_calls = calls

/-- The state after the paddle reflection of `pong_physic` (pong.c, lines
425-426): the angle of the ball is replaced, nothing else. -/
noncomputable def paddle_reflected (p : pong) : pong :=
  { p with ball_angle := paddle_reflection p.ball_angle }

/-! ## Properties -/

/-! ### The paddles stay in the field -/

theorem clamp_mem (value : ℝ) : -0.9 ≤ clamp value (-0.9) 0.9 ∧ clamp value (-0.9) 0.9 ≤ 0.9 := by
  unfold clamp
  split_ifs with h1 h2
  · constructor <;> norm_num
  · constructor <;> norm_num
  · constructor
    · exact not_lt.mp h1
    · exact not_lt.mp h2

theorem players_position_players (p : pong) :
    (pong_physic_players p).players_position = p.players_position := by
  unfold pong_physic_players
  split_ifs <;> simp [pong_player_scores, pong_ball_angle, random]

theorem players_position_walls (p : pong) :
    (pong_physic_walls p).players_position = p.players_position := by
  unfold pong_physic_walls
  split_ifs <;> rfl

/-- C1. After one call of `pong_physic`, whatever the state and the duration,
the positions of both players lie in `[-0.9, 0.9]`. -/
theorem pong_physic_players_position_clamped (p : pong) (duration : timespec) :
    (-0.9 ≤ (pong_physic p duration).players_position PLAYER_1
      ∧ (pong_physic p duration).players_position PLAYER_1 ≤ 0.9)
    ∧ (-0.9 ≤ (pong_physic p duration).players_position PLAYER_2
      ∧ (pong_physic p duration).players_position PLAYER_2 ≤ 0.9) := by
  unfold pong_physic
  rw [players_position_players, players_position_walls]
  simp only [pong_physic_integrate, PLAYER_1, PLAYER_2]
  refine ⟨?_, ?_⟩
  · rw [Function.update_noteq (by decide), Function.update_same]
    exact clamp_mem _
  · rw [Function.update_same]
    exact clamp_mem _

/-! ### The two reflections -/

theorem sqrt_one_sub_neg_sin_sq (a : ℝ) : √(1 - (-Real.sin a) ^ 2) = |Real.cos a| := by
  have h : 1 - (-Real.sin a) ^ 2 = Real.cos a ^ 2 := by
    have := Real.sin_sq_add_cos_sq a
    linarith [neg_sq (Real.sin a)]
  rw [h, Real.sqrt_sq_eq_abs]

theorem sqrt_one_sub_neg_cos_sq (a : ℝ) : √(1 - (-Real.cos a) ^ 2) = |Real.sin a| := by
  have h : 1 - (-Real.cos a) ^ 2 = Real.sin a ^ 2 := by
    have := Real.sin_sq_add_cos_sq a
    linarith [neg_sq (Real.cos a)]
  rw [h, Real.sqrt_sq_eq_abs]

/-- C3. The wall reflection of `pong_physic` keeps the cosine of the ball angle
and negates its sine, for every real angle. -/
theorem wall_reflection_cos_sin (a : ℝ) :
    Real.cos (wall_reflection a) = Real.cos a
      ∧ Real.sin (wall_reflection a) = -Real.sin a := by
  have hs : Real.sin (Real.arcsin (-Real.sin a)) = -Real.sin a :=
    Real.sin_arcsin (by linarith [Real.sin_le_one a]) (by linarith [Real.neg_one_le_sin a])
  have hc : Real.cos (Real.arcsin (-Real.sin a)) = |Real.cos a| := by
    rw [Real.cos_arcsin, sqrt_one_sub_neg_sin_sq]
  unfold wall_reflection
  by_cases h : Real.cos a < 0.0
  · have h0 : Real.cos a < 0 := by norm_num at h; exact h
    simp only [h, if_true]
    rw [Real.cos_pi_sub, Real.sin_pi_sub, hs, hc, abs_of_neg h0]
    exact ⟨neg_neg _, rfl⟩
  · have h0 : 0 ≤ Real.cos a := by norm_num at h; exact h
    simp only [h, if_false]
    rw [hs, hc, abs_of_nonneg h0]
    exact ⟨rfl, rfl⟩

/-- C4. The paddle reflection of `pong_physic` negates the cosine of the ball
angle and keeps its sine, for every real angle. -/
theorem paddle_reflection_cos_sin (a : ℝ) :
    Real.cos (paddle_reflection a) = -Real.cos a
      ∧ Real.sin (paddle_reflection a) = Real.sin a := by
  have hc : Real.cos (Real.arccos (-Real.cos a)) = -Real.cos a :=
    Real.cos_arccos (by linarith [Real.cos_le_one a]) (by linarith [Real.neg_one_le_cos a])
  have hs : Real.sin (Real.arccos (-Real.cos a)) = |Real.sin a| := by
    rw [Real.sin_arccos, sqrt_one_sub_neg_cos_sq]
  unfold paddle_reflection
  by_cases h : Real.sin a < 0.0
  · have h0 : Real.sin a < 0 := by norm_num at h; exact h
    simp only [h, if_true]
    rw [Real.cos_two_pi_sub, Real.sin_two_pi_sub, hs, hc, abs_of_neg h0]
    exact ⟨rfl, neg_neg _⟩
  · have h0 : 0 ≤ Real.sin a := by norm_num at h; exact h
    simp only [h, if_false]
    rw [hs, hc, abs_of_nonneg h0]
    exact ⟨rfl, rfl⟩

/-! ### The launch angle -/

theorem pong_ball_angle_fst (p : pong) :
    (pong_ball_angle p).1
      = 2 * Real.pi * ((p.random_stream p.random_calls % RANDOM_RANGE : Nat) : ℝ) / 2147483647 := by
  simp only [pong_ball_angle, random]
  norm_num

theorem pong_init_random_stream (keyboard_mapping : Nat → List Nat) (wm_delete_window : Nat)
    (random_stream : Nat → Nat) :
    (pong_init keyboard_mapping wm_delete_window random_stream).random_stream = random_stream :=
  rfl

theorem pong_physic_walls_ball_position (q : pong) :
    (pong_physic_walls q).ball_position = q.ball_position := by
  unfold pong_physic_walls
  split_ifs <;> rfl

theorem pong_physic_walls_players_score (q : pong) :
    (pong_physic_walls q).players_score = q.players_score := by
  unfold pong_physic_walls
  split_ifs <;> rfl

theorem pong_physic_walls_random (q : pong) :
    (pong_physic_walls q).random_stream = q.random_stream
      ∧ (pong_physic_walls q).random_calls = q.random_calls := by
  unfold pong_physic_walls
  split_ifs <;> exact ⟨rfl, rfl⟩

theorem pong_physic_integrate_abscissa (p : pong) (elapsed : ℝ) :
    (pong_physic_integrate p elapsed).ball_position ABSCISSA
      = p.ball_position ABSCISSA + BALL_SPEED * elapsed * Real.cos p.ball_angle := by
  simp [pong_physic_integrate, ABSCISSA, ORDINATE]

theorem pong_physic_integrate_ordinate (p : pong) (elapsed : ℝ) :
    (pong_physic_integrate p elapsed).ball_position ORDINATE
      = p.ball_position ORDINATE + BALL_SPEED * elapsed * Real.sin p.ball_angle := by
  simp [pong_physic_integrate, ABSCISSA, ORDINATE]

/-- Outside of `(-1, 0.95)` the abscissa of the ball is in no paddle band. -/
theorem not_collides_of_abscissa (q : pong) (player : Fin 2)
    (h : q.ball_position ABSCISSA ≤ -1.0 ∨ q.ball_position ABSCISSA ≥ 0.95) :
    pong_player_collides_ball q player = false := by
  have hc : contains (players_bound player).1 (players_bound player).2
      (q.ball_position ABSCISSA) = false := by
    unfold contains players_bound
    by_cases hp : player = 0
    · simp only [hp, if_true]
      rcases h with h | h
      · have : ¬ (q.ball_position ABSCISSA ≥ -0.8) := by norm_num at h ⊢; linarith
        simp [this]
      · have : ¬ (q.ball_position ABSCISSA ≤ -0.75) := by norm_num at h ⊢; linarith
        simp [this]
    · simp only [hp, if_false]
      rcases h with h | h
      · have : ¬ (q.ball_position ABSCISSA ≥ 0.7) := by norm_num at h ⊢; linarith
        simp [this]
      · have : ¬ (q.ball_position ABSCISSA ≤ 0.75) := by norm_num at h ⊢; linarith
        simp [this]
  unfold pong_player_collides_ball
  rw [hc]
  rfl

theorem pong_physic_players_left (q : pong) (h : q.ball_position ABSCISSA ≤ -1.0) :
    pong_physic_players q = pong_player_scores q PLAYER_2 := by
  unfold pong_physic_players
  rw [not_collides_of_abscissa q PLAYER_1 (Or.inl h), not_collides_of_abscissa q PLAYER_2 (Or.inl h)]
  simp [h]

theorem pong_physic_players_right (q : pong) (h : q.ball_position ABSCISSA ≥ 0.95) :
    pong_physic_players q = pong_player_scores q PLAYER_1 := by
  have hl : ¬ (q.ball_position ABSCISSA ≤ -1.0) := by norm_num at h ⊢; linarith
  unfold pong_physic_players
  rw [not_collides_of_abscissa q PLAYER_1 (Or.inr h), not_collides_of_abscissa q PLAYER_2 (Or.inr h)]
  simp [h, hl]

theorem pong_player_scores_players_score (q : pong) (player : Fin 2) :
    (pong_player_scores q player).players_score
      = Function.update q.players_score player ((q.players_score player + 1) % UINT_RANGE) :=
  rfl

/-- A call of `pong_physic` whose ball ends at or beyond the left bound is a
point of player 2; at or beyond the right bound, a point of player 1. -/
theorem pong_physic_players_score_out (p : pong) (duration : timespec) :
    (p.ball_position ABSCISSA + BALL_SPEED * elapsed_seconds duration * Real.cos p.ball_angle
        ≤ -1.0 →
      (pong_physic p duration).players_score
        = Function.update p.players_score PLAYER_2 ((p.players_score PLAYER_2 + 1) % UINT_RANGE))
    ∧ (p.ball_position ABSCISSA + BALL_SPEED * elapsed_seconds duration * Real.cos p.ball_angle
        ≥ 0.95 →
      (pong_physic p duration).players_score
        = Function.update p.players_score PLAYER_1
            ((p.players_score PLAYER_1 + 1) % UINT_RANGE)) := by
  constructor
  · intro h
    rw [← pong_physic_integrate_abscissa, ← pong_physic_walls_ball_position] at h
    unfold pong_physic
    rw [pong_physic_players_left _ h, pong_player_scores_players_score,
      pong_physic_walls_players_score]
    rfl
  · intro h
    rw [← pong_physic_integrate_abscissa, ← pong_physic_walls_ball_position] at h
    unfold pong_physic
    rw [pong_physic_players_right _ h, pong_player_scores_players_score,
      pong_physic_walls_players_score]
    rfl

/-- C2, as the code has it. When the abscissa of the ball after the integration
of `pong_physic` is at most `-1.0`, the score of player 2 becomes its successor
modulo `2^32` and the score of player 1 is kept; when it is at least `0.95`, the
score of player 1 becomes its successor modulo `2^32` and the score of player 2
is kept. No paddle collision pre-empts either branch. -/
theorem pong_physic_score_attribution (p : pong) (duration : timespec) :
    (p.ball_position ABSCISSA + BALL_SPEED * elapsed_seconds duration * Real.cos p.ball_angle
        ≤ -1.0 →
      (pong_physic p duration).players_score PLAYER_2
          = (p.players_score PLAYER_2 + 1) % UINT_RANGE
        ∧ (pong_physic p duration).players_score PLAYER_1 = p.players_score PLAYER_1)
    ∧ (p.ball_position ABSCISSA + BALL_SPEED * elapsed_seconds duration * Real.cos p.ball_angle
        ≥ 0.95 →
      (pong_physic p duration).players_score PLAYER_1
          = (p.players_score PLAYER_1 + 1) % UINT_RANGE
        ∧ (pong_physic p duration).players_score PLAYER_2 = p.players_score PLAYER_2) := by
  constructor
  · intro h
    rw [(pong_physic_players_score_out p duration).1 h]
    simp [PLAYER_1, PLAYER_2]
  · intro h
    rw [(pong_physic_players_score_out p duration).2 h]
    simp [PLAYER_1, PLAYER_2]

theorem elapsed_seconds_default : elapsed_seconds default_frame = 0.016666666 := by
  simp only [elapsed_seconds, default_frame, pong_parse_args_init]
  norm_num

theorem pong_in_play_leaving_left :
    (pong_in_play (-0.99) 0 Real.pi 3 7).ball_position ABSCISSA
        + BALL_SPEED * elapsed_seconds default_frame
          * Real.cos (pong_in_play (-0.99) 0 Real.pi 3 7).ball_angle ≤ -1.0 := by
  rw [elapsed_seconds_default]
  simp only [pong_in_play, ABSCISSA, BALL_SPEED, Real.cos_pi]
  norm_num

/-- C2 at a concrete state: the ball at `x = -0.99` travelling left leaves the
field within one default frame, the score goes from `3 : 7` to `3 : 8`. -/
theorem pong_physic_score_attribution_witness :
    (pong_in_play (-0.99) 0 Real.pi 3 7).ball_position ABSCISSA
        + BALL_SPEED * elapsed_seconds default_frame
          * Real.cos (pong_in_play (-0.99) 0 Real.pi 3 7).ball_angle ≤ -1.0
    ∧ (pong_physic (pong_in_play (-0.99) 0 Real.pi 3 7) default_frame).players_score PLAYER_2 = 8
    ∧ (pong_physic (pong_in_play (-0.99) 0 Real.pi 3 7) default_frame).players_score PLAYER_1
        = 3 := by
  have h := (pong_physic_score_attribution (pong_in_play (-0.99) 0 Real.pi 3 7) default_frame).1
    pong_in_play_leaving_left
  refine ⟨pong_in_play_leaving_left, ?_, ?_⟩
  · rw [h.1]
    simp [pong_in_play, PLAYER_2, UINT_RANGE]
  · rw [h.2]
    simp [pong_in_play, PLAYER_1]

theorem pong_in_play_leaving_left_max :
    (pong_in_play (-0.99) 0 Real.pi 0 4294967295).ball_position ABSCISSA
        + BALL_SPEED * elapsed_seconds default_frame
          * Real.cos (pong_in_play (-0.99) 0 Real.pi 0 4294967295).ball_angle ≤ -1.0 := by
  rw [elapsed_seconds_default]
  simp only [pong_in_play, ABSCISSA, BALL_SPEED, Real.cos_pi]
  norm_num

/-- C2 fails as stated: with player 2 at the largest `unsigned` score,
`4294967295`, a ball leaving on the left sets the score of player 2 to `0`, which
is not the former score incremented by 1. -/
theorem pong_physic_score_wraps :
    (pong_in_play (-0.99) 0 Real.pi 0 4294967295).ball_position ABSCISSA
        + BALL_SPEED * elapsed_seconds default_frame
          * Real.cos (pong_in_play (-0.99) 0 Real.pi 0 4294967295).ball_angle ≤ -1.0
    ∧ (pong_physic (pong_in_play (-0.99) 0 Real.pi 0 4294967295) default_frame).players_score
        PLAYER_2 = 0
    ∧ (pong_physic (pong_in_play (-0.99) 0 Real.pi 0 4294967295) default_frame).players_score
        PLAYER_2
      ≠ (pong_in_play (-0.99) 0 Real.pi 0 4294967295).players_score PLAYER_2 + 1 := by
  have h := (pong_physic_players_score_out (pong_in_play (-0.99) 0 Real.pi 0 4294967295)
    default_frame).1 pong_in_play_leaving_left_max
  refine ⟨pong_in_play_leaving_left_max, ?_, ?_⟩
  · rw [h]
    simp [pong_in_play, PLAYER_2, UINT_RANGE]
  · rw [h]
    simp [pong_in_play, PLAYER_2, UINT_RANGE]

theorem succ_mod_uint_ne (n : Nat) : (n + 1) % UINT_RANGE ≠ n := by
  unfold UINT_RANGE
  omega

theorem pong_player_scores_effect (q : pong) (player : Fin 2) :
    (pong_player_scores q player).ball_position ABSCISSA = 0
      ∧ (pong_player_scores q player).ball_position ORDINATE = 0
      ∧ (pong_player_scores q player).ball_angle = (pong_ball_angle q).1
      ∧ (pong_player_scores q player).random_calls = q.random_calls + 1
      ∧ (pong_player_scores q player).players_score ≠ q.players_score := by
  refine ⟨?_, ?_, ?_, ?_, ?_⟩
  · simp [pong_player_scores, pong_ball_angle, random, ABSCISSA, ORDINATE]
  · simp [pong_player_scores, pong_ball_angle, random, ABSCISSA, ORDINATE]
  · simp [pong_player_scores, pong_ball_angle, random]
  · simp [pong_player_scores, pong_ball_angle, random]
  · intro h
    have := congrFun h player
    rw [pong_player_scores_players_score, Function.update_same] at this
    exact succ_mod_uint_ne _ this

theorem pong_ball_angle_congr (p q : pong) (hs : q.random_stream = p.random_stream)
    (hc : q.random_calls = p.random_calls) : (pong_ball_angle q).1 = (pong_ball_angle p).1 := by
  rw [pong_ball_angle_fst, pong_ball_angle_fst, hs, hc]

/-- The last step of `pong_physic` either scores, which resets the ball and
draws one angle, or keeps the scores and the random source. -/
theorem pong_physic_players_cases (q : pong) :
    ((pong_physic_players q).players_score ≠ q.players_score
        ∧ (pong_physic_players q).ball_position ABSCISSA = 0
        ∧ (pong_physic_players q).ball_position ORDINATE = 0
        ∧ (pong_physic_players q).ball_angle = (pong_ball_angle q).1
        ∧ (pong_physic_players q).random_calls = q.random_calls + 1)
      ∨ ((pong_physic_players q).players_score = q.players_score
        ∧ (pong_physic_players q).random_calls = q.random_calls) := by
  unfold pong_physic_players
  split_ifs
  · exact Or.inr ⟨rfl, rfl⟩
  · have h := pong_player_scores_effect q PLAYER_2
    exact Or.inl ⟨h.2.2.2.2, h.1, h.2.1, h.2.2.1, h.2.2.2.1⟩
  · have h := pong_player_scores_effect q PLAYER_1
    exact Or.inl ⟨h.2.2.2.2, h.1, h.2.1, h.2.2.1, h.2.2.2.1⟩
  · exact Or.inr ⟨rfl, rfl⟩

/-- C7. Whenever a call of `pong_physic` changes a score, the ball is at
`(0, 0)`, its angle is the one `pong_ball_angle` draws from the random source as
it stood before the call, and the source has been consulted exactly once; when
no score changes, the random source has not been consulted. -/
theorem pong_physic_scoring_resets_ball (p : pong) (duration : timespec) :
    ((pong_physic p duration).players_score ≠ p.players_score →
      (pong_physic p duration).ball_position ABSCISSA = 0
        ∧ (pong_physic p duration).ball_position ORDINATE = 0
        ∧ (pong_physic p duration).ball_angle = (pong_ball_angle p).1
        ∧ (pong_physic p duration).random_calls = p.random_calls + 1)
    ∧ ((pong_physic p duration).players_score = p.players_score →
      (pong_physic p duration).random_calls = p.random_calls) := by
  have hscore : (pong_physic_walls (pong_physic_integrate p (elapsed_seconds duration))).players_score
      = p.players_score := by
    rw [pong_physic_walls_players_score]
    rfl
  have hstream : (pong_physic_walls (pong_physic_integrate p (elapsed_seconds duration))).random_stream
      = p.random_stream := by
    rw [(pong_physic_walls_random _).1]
    rfl
  have hcalls : (pong_physic_walls (pong_physic_integrate p (elapsed_seconds duration))).random_calls
      = p.random_calls := by
    rw [(pong_physic_walls_random _).2]
    rfl
  have hangle := pong_ball_angle_congr p _ hstream hcalls
  unfold pong_physic
  rcases pong_physic_players_cases
    (pong_physic_walls (pong_physic_integrate p (elapsed_seconds duration))) with h | h
  · rw [hscore, hangle, hcalls] at h
    exact ⟨fun _ => ⟨h.2.1, h.2.2.1, h.2.2.2.1, h.2.2.2.2⟩, fun heq => absurd heq h.1⟩
  · rw [hscore, hcalls] at h
    exact ⟨fun hne => absurd h.1 hne, fun _ => h.2⟩

theorem pong_physic_leaving_left_score_changes :
    (pong_physic (pong_in_play (-0.99) 0 Real.pi 3 7) default_frame).players_score
      ≠ (pong_in_play (-0.99) 0 Real.pi 3 7).players_score := by
  rw [(pong_physic_players_score_out _ default_frame).1 pong_in_play_leaving_left]
  intro h
  have := congrFun h PLAYER_2
  rw [Function.update_same] at this
  exact succ_mod_uint_ne _ this

/-- C7 at a concrete state: the ball leaving on the left changes the score; it
is then at `(0, 0)` with angle `0`, the angle of the draw `0`, and one draw has
been made since `pong_init`, which made the first. -/
theorem pong_physic_scoring_resets_ball_witness :
    (pong_physic (pong_in_play (-0.99) 0 Real.pi 3 7) default_frame).players_score
        ≠ (pong_in_play (-0.99) 0 Real.pi 3 7).players_score
    ∧ (pong_physic (pong_in_play (-0.99) 0 Real.pi 3 7) default_frame).ball_position ABSCISSA = 0
    ∧ (pong_physic (pong_in_play (-0.99) 0 Real.pi 3 7) default_frame).ball_position ORDINATE = 0
    ∧ (pong_physic (pong_in_play (-0.99) 0 Real.pi 3 7) default_frame).ball_angle = 0
    ∧ (pong_physic (pong_in_play (-0.99) 0 Real.pi 3 7) default_frame).random_calls = 2 := by
  have h := (pong_physic_scoring_resets_ball (pong_in_play (-0.99) 0 Real.pi 3 7)
    default_frame).1 pong_physic_leaving_left_score_changes
  refine ⟨pong_physic_leaving_left_score_changes, h.1, h.2.1, ?_, ?_⟩
  · rw [h.2.2.1, pong_ball_angle_fst]
    simp [pong_in_play, pong_init_random_stream]
  · rw [h.2.2.2]
    rfl

/-! ### Key dispatch -/

theorem pong_player1_up_down (p : pong) : pong_player1_up (pong_player1_down p) = p := by
  simp [pong_player1_up, pong_player1_down]

theorem pong_player1_down_up (p : pong) : pong_player1_down (pong_player1_up p) = p := by
  simp [pong_player1_up, pong_player1_down]

theorem pong_player2_up_down (p : pong) : pong_player2_up (pong_player2_down p) = p := by
  simp [pong_player2_up, pong_player2_down]

theorem pong_player2_down_up (p : pong) : pong_player2_down (pong_player2_up p) = p := by
  simp [pong_player2_up, pong_player2_down]

theorem keysyms_not_sentinel :
    KEYSYM_LATIN_1_P ≠ KEYSYM_SPECIAL_NOSYMBOL ∧ KEYSYM_LATIN_1_Q ≠ KEYSYM_SPECIAL_NOSYMBOL
      ∧ KEYSYM_LATIN_1_R ≠ KEYSYM_SPECIAL_NOSYMBOL ∧ KEYSYM_LATIN_1_S ≠ KEYSYM_SPECIAL_NOSYMBOL
      ∧ KEYSYM_LATIN_1_Z ≠ KEYSYM_SPECIAL_NOSYMBOL ∧ KEYSYM_FUNCTION_UP ≠ KEYSYM_SPECIAL_NOSYMBOL
      ∧ KEYSYM_FUNCTION_DOWN ≠ KEYSYM_SPECIAL_NOSYMBOL := by
  decide

/-- C6. For each of the four movement keysyms and every state, when the keysyms
of the keycode hold that keysym and no other keysym of the tables, the press
dispatched through `key_presses` followed by the release dispatched through
`key_releases` gives the state back: both speeds and every other field. -/
theorem press_release_round_trip (p : pong) (detail sym : Nat)
    (hsym : sym = KEYSYM_LATIN_1_S ∨ sym = KEYSYM_LATIN_1_Z
      ∨ sym = KEYSYM_FUNCTION_UP ∨ sym = KEYSYM_FUNCTION_DOWN)
    (hmem : sym ∈ p.keyboard_mapping detail)
    (hother : ∀ k ∈ p.keyboard_mapping detail, k ∈ bound_keysyms → k = sym) :
    pong_events_key (pong_events_key p detail key_presses) detail key_releases = p := by
  obtain ⟨sP, sQ, sR, sS, sZ, sU, sD⟩ := keysyms_not_sentinel
  have hP : KEYSYM_LATIN_1_P ∈ p.keyboard_mapping detail → KEYSYM_LATIN_1_P = sym :=
    fun h => hother _ h (by decide)
  have hQ : KEYSYM_LATIN_1_Q ∈ p.keyboard_mapping detail → KEYSYM_LATIN_1_Q = sym :=
    fun h => hother _ h (by decide)
  have hR : KEYSYM_LATIN_1_R ∈ p.keyboard_mapping detail → KEYSYM_LATIN_1_R = sym :=
    fun h => hother _ h (by decide)
  have hS : KEYSYM_LATIN_1_S ∈ p.keyboard_mapping detail → KEYSYM_LATIN_1_S = sym :=
    fun h => hother _ h (by decide)
  have hZ : KEYSYM_LATIN_1_Z ∈ p.keyboard_mapping detail → KEYSYM_LATIN_1_Z = sym :=
    fun h => hother _ h (by decide)
  have hU : KEYSYM_FUNCTION_UP ∈ p.keyboard_mapping detail → KEYSYM_FUNCTION_UP = sym :=
    fun h => hother _ h (by decide)
  rcases hsym with h | h | h | h <;> subst h
  · have nP : KEYSYM_LATIN_1_P ∉ p.keyboard_mapping detail := fun h => absurd (hP h) (by decide)
    have nQ : KEYSYM_LATIN_1_Q ∉ p.keyboard_mapping detail := fun h => absurd (hQ h) (by decide)
    have nR : KEYSYM_LATIN_1_R ∉ p.keyboard_mapping detail := fun h => absurd (hR h) (by decide)
    have e1 : pong_events_key p detail key_presses = pong_player1_down p := by
      simp [pong_events_key, pong_events_key_find, key_presses, nP, nQ, nR, hmem, sP, sQ, sR, sS]
    have e2 : pong_events_key (pong_player1_down p) detail key_releases
        = pong_player1_up (pong_player1_down p) := by
      have hk : (pong_player1_down p).keyboard_mapping = p.keyboard_mapping := rfl
      simp [pong_events_key, pong_events_key_find, key_releases, hk, hmem, sS]
    rw [e1, e2, pong_player1_up_down]
  · have nP : KEYSYM_LATIN_1_P ∉ p.keyboard_mapping detail := fun h => absurd (hP h) (by decide)
    have nQ : KEYSYM_LATIN_1_Q ∉ p.keyboard_mapping detail := fun h => absurd (hQ h) (by decide)
    have nR : KEYSYM_LATIN_1_R ∉ p.keyboard_mapping detail := fun h => absurd (hR h) (by decide)
    have nS : KEYSYM_LATIN_1_S ∉ p.keyboard_mapping detail := fun h => absurd (hS h) (by decide)
    have e1 : pong_events_key p detail key_presses = pong_player1_up p := by
      simp [pong_events_key, pong_events_key_find, key_presses, nP, nQ, nR, nS, hmem,
        sP, sQ, sR, sS, sZ]
    have e2 : pong_events_key (pong_player1_up p) detail key_releases
        = pong_player1_down (pong_player1_up p) := by
      have hk : (pong_player1_up p).keyboard_mapping = p.keyboard_mapping := rfl
      simp [pong_events_key, pong_events_key_find, key_releases, hk, hmem, nS, sS, sZ]
    rw [e1, e2, pong_player1_down_up]
  · have nP : KEYSYM_LATIN_1_P ∉ p.keyboard_mapping detail := fun h => absurd (hP h) (by decide)
    have nQ : KEYSYM_LATIN_1_Q ∉ p.keyboard_mapping detail := fun h => absurd (hQ h) (by decide)
    have nR : KEYSYM_LATIN_1_R ∉ p.keyboard_mapping detail := fun h => absurd (hR h) (by decide)
    have nS : KEYSYM_LATIN_1_S ∉ p.keyboard_mapping detail := fun h => absurd (hS h) (by decide)
    have nZ : KEYSYM_LATIN_1_Z ∉ p.keyboard_mapping detail := fun h => absurd (hZ h) (by decide)
    have e1 : pong_events_key p detail key_presses = pong_player2_up p := by
      simp [pong_events_key, pong_events_key_find, key_presses, nP, nQ, nR, nS, nZ, hmem,
        sP, sQ, sR, sS, sZ, sU]
    have e2 : pong_events_key (pong_player2_up p) detail key_releases
        = pong_player2_down (pong_player2_up p) := by
      have hk : (pong_player2_up p).keyboard_mapping = p.keyboard_mapping := rfl
      simp [pong_events_key, pong_events_key_find, key_releases, hk, hmem, nS, nZ, sS, sZ, sU]
    rw [e1, e2, pong_player2_down_up]
  · have nP : KEYSYM_LATIN_1_P ∉ p.keyboard_mapping detail := fun h => absurd (hP h) (by decide)
    have nQ : KEYSYM_LATIN_1_Q ∉ p.keyboard_mapping detail := fun h => absurd (hQ h) (by decide)
    have nR : KEYSYM_LATIN_1_R ∉ p.keyboard_mapping detail := fun h => absurd (hR h) (by decide)
    have nS : KEYSYM_LATIN_1_S ∉ p.keyboard_mapping detail := fun h => absurd (hS h) (by decide)
    have nZ : KEYSYM_LATIN_1_Z ∉ p.keyboard_mapping detail := fun h => absurd (hZ h) (by decide)
    have nU : KEYSYM_FUNCTION_UP ∉ p.keyboard_mapping detail := fun h => absurd (hU h) (by decide)
    have e1 : pong_events_key p detail key_presses = pong_player2_down p := by
      simp [pong_events_key, pong_events_key_find, key_presses, nP, nQ, nR, nS, nZ, nU, hmem,
        sP, sQ, sR, sS, sZ, sU, sD]
    have e2 : pong_events_key (pong_player2_down p) detail key_releases
        = pong_player2_up (pong_player2_down p) := by
      have hk : (pong_player2_down p).keyboard_mapping = p.keyboard_mapping := rfl
      simp [pong_events_key, pong_events_key_find, key_releases, hk, hmem, nS, nZ, nU,
        sS, sZ, sU, sD]
    rw [e1, e2, pong_player2_up_down]

/-- C6 from the state of `pong_init`, on a keyboard whose keycode 39 is `s`/`S`:
the press then the release of `s` gives the state back, and the speed of
player 1 is exactly 0. -/
theorem press_release_round_trip_witness :
    KEYSYM_LATIN_1_S ∈ (pong_init keyboard_mapping_sample 0 (fun _ => 0)).keyboard_mapping 39
    ∧ pong_events_key
        (pong_events_key (pong_init keyboard_mapping_sample 0 (fun _ => 0)) 39 key_presses)
        39 key_releases
      = pong_init keyboard_mapping_sample 0 (fun _ => 0)
    ∧ (pong_events_key
        (pong_events_key (pong_init keyboard_mapping_sample 0 (fun _ => 0)) 39 key_presses)
        39 key_releases).players_speed PLAYER_1 = 0 := by
  have hrow : (pong_init keyboard_mapping_sample 0 (fun _ => 0)).keyboard_mapping 39
      = ['s'.toNat, 'S'.toNat] := rfl
  have hmem : KEYSYM_LATIN_1_S
      ∈ (pong_init keyboard_mapping_sample 0 (fun _ => 0)).keyboard_mapping 39 := by
    rw [hrow]; decide
  have h := press_release_round_trip (pong_init keyboard_mapping_sample 0 (fun _ => 0)) 39
    KEYSYM_LATIN_1_S (Or.inl rfl) hmem (by rw [hrow]; decide)
  refine ⟨hmem, h, ?_⟩
  rw [h]
  simp only [pong_init, pong_reset, pong_ball_angle, random, PLAYER_1, PLAYER_2]
  norm_num

/-! ### The paused loop -/

theorem pong_events_key_find_mem (keysyms : List Nat) (handlers : List pong_key_event)
    (h : pong_key_event) (hfind : pong_events_key_find keysyms handlers = some h) :
    h ∈ handlers ∧ h.keysym ≠ KEYSYM_SPECIAL_NOSYMBOL := by
  induction handlers with
  | nil => simp [pong_events_key_find] at hfind
  | cons e rest ih =>
    unfold pong_events_key_find at hfind
    split_ifs at hfind with h1 h2
    · have he : e = h := Option.some.inj hfind
      subst he
      exact ⟨List.mem_cons_self _ _, h1⟩
    · exact ⟨List.mem_cons_of_mem _ (ih hfind).1, (ih hfind).2⟩

theorem same_play_refl (p : pong) : same_play p p :=
  ⟨rfl, rfl, rfl, rfl, rfl⟩

theorem same_play_trans (r q p : pong) (h1 : same_play r q) (h2 : same_play q p) :
    same_play r p :=
  ⟨h1.1.trans h2.1, h1.2.1.trans h2.2.1, h1.2.2.1.trans h2.2.2.1,
    h1.2.2.2.1.trans h2.2.2.2.1, h1.2.2.2.2.trans h2.2.2.2.2⟩

/-- A handler of `key_presses` other than `pong_pause` and `pong_reset` keeps
the ball, the paddles and the pause flag. -/
theorem key_presses_same_play (p : pong) (h : pong_key_event) (hmem : h ∈ key_presses)
    (hP : h.keysym ≠ KEYSYM_LATIN_1_P) (hR : h.keysym ≠ KEYSYM_LATIN_1_R) :
    same_play (h.handler p) p := by
  simp only [key_presses, List.mem_cons, List.mem_singleton, List.not_mem_nil, or_false] at hmem
  rcases hmem with e | e | e | e | e | e | e | e <;> subst e
  · exact absurd rfl hP
  · exact same_play_refl p
  · exact absurd rfl hR
  all_goals exact same_play_refl p

/-- A handler of `key_releases` keeps the ball, the paddles and the pause flag. -/
theorem key_releases_same_play (p : pong) (h : pong_key_event) (hmem : h ∈ key_releases) :
    same_play (h.handler p) p := by
  simp only [key_releases, List.mem_cons, List.mem_singleton, List.not_mem_nil, or_false] at hmem
  rcases hmem with e | e | e | e | e <;> subst e
  all_goals exact same_play_refl p

/-- An event that calls neither `pong_pause` nor `pong_reset` keeps the ball,
the paddles and the pause flag. -/
theorem pong_events_handle_same_play (p : pong) (e : xcb_event)
    (h : calls_pause_or_reset p e = false) : same_play (pong_events_handle p e) p := by
  cases e with
  | key_press detail =>
    simp only [pong_events_handle, pong_events_key]
    simp only [calls_pause_or_reset] at h
    cases hfind : pong_events_key_find (p.keyboard_mapping detail) key_presses with
    | none => exact same_play_refl p
    | some k =>
      rw [hfind] at h
      simp only [Bool.or_eq_false_iff, beq_eq_false_iff_ne, ne_eq] at h
      exact key_presses_same_play p k (pong_events_key_find_mem _ _ _ hfind).1 h.1 h.2
  | key_release detail =>
    simp only [pong_events_handle, pong_events_key]
    cases hfind : pong_events_key_find (p.keyboard_mapping detail) key_releases with
    | none => exact same_play_refl p
    | some k => exact key_releases_same_play p k (pong_events_key_find_mem _ _ _ hfind).1
  | configure_notify width height =>
    simp only [pong_events_handle]
    split_ifs <;> exact same_play_refl _
  | client_message data32_0 =>
    simp only [pong_events_handle]
    split_ifs <;> exact same_play_refl _
  | ignored => exact same_play_refl p
  | error => exact same_play_refl p

theorem calls_pause_or_reset_congr (q p : pong) (h : q.keyboard_mapping = p.keyboard_mapping)
    (e : xcb_event) : calls_pause_or_reset q e = calls_pause_or_reset p e := by
  cases e <;> simp [calls_pause_or_reset, h]

theorem pong_events_same_play (events : List xcb_event) (p : pong)
    (h : ∀ e ∈ events, calls_pause_or_reset p e = false) : same_play (pong_events p events) p := by
  induction events generalizing p with
  | nil => exact same_play_refl p
  | cons e rest ih =>
    have h1 := pong_events_handle_same_play p e (h e (List.mem_cons_self _ _))
    have h2 : ∀ x ∈ rest, calls_pause_or_reset (pong_events_handle p e) x = false := by
      intro x hx
      rw [calls_pause_or_reset_congr _ p h1.2.2.2.2]
      exact h x (List.mem_cons_of_mem _ hx)
    exact same_play_trans _ _ _ (ih (pong_events_handle p e) h2) h1

theorem pong_run_body_same_play (p : pong) (frame_duration : timespec) (events : List xcb_event)
    (hp : p.paused = true) (h : ∀ e ∈ events, calls_pause_or_reset p e = false) :
    same_play (pong_run_body p frame_duration events) p := by
  have h1 := pong_events_same_play events p h
  have h2 : (pong_events p events).paused = true := h1.2.2.2.1.trans hp
  unfold pong_run_body
  simp only [h2, Bool.true_eq_false, if_false]
  exact h1

theorem pong_run_bodies_same_play (ticks : List (List xcb_event)) (p : pong)
    (frame_duration : timespec) (hp : p.paused = true)
    (h : ∀ events ∈ ticks, ∀ e ∈ events, calls_pause_or_reset p e = false) :
    same_play (pong_run_bodies p frame_duration ticks) p := by
  induction ticks generalizing p with
  | nil => exact same_play_refl p
  | cons events rest ih =>
    have h1 := pong_run_body_same_play p frame_duration events hp (h events (List.mem_cons_self _ _))
    have h2 : ∀ evs ∈ rest, ∀ e ∈ evs,
        calls_pause_or_reset (pong_run_body p frame_duration events) e = false := by
      intro evs hevs e he
      rw [calls_pause_or_reset_congr _ p h1.2.2.2.2]
      exact h evs (List.mem_cons_of_mem _ hevs) e he
    exact same_play_trans _ _ _
      (ih (pong_run_body p frame_duration events) (h1.2.2.2.1.trans hp) h2) h1

/-- C8. From a paused state, running the body of the loop of `pong_run` once
for each of any number of batches of events, none of which calls `pong_pause`
or `pong_reset`, leaves the position and the angle of the ball and the positions
of both paddles as they were, whatever the speeds of the paddles; the game is
still paused. -/
theorem paused_ticks_keep_ball_and_paddles (p : pong) (frame_duration : timespec)
    (ticks : List (List xcb_event)) (hp : p.paused = true)
    (h : ∀ events ∈ ticks, ∀ e ∈ events, calls_pause_or_reset p e = false) :
    (pong_run_bodies p frame_duration ticks).ball_position = p.ball_position
      ∧ (pong_run_bodies p frame_duration ticks).ball_angle = p.ball_angle
      ∧ (pong_run_bodies p frame_duration ticks).players_position = p.players_position
      ∧ (pong_run_bodies p frame_duration ticks).paused = true := by
  have hs := pong_run_bodies_same_play ticks p frame_duration hp h
  exact ⟨hs.1, hs.2.1, hs.2.2.1, hs.2.2.2.1.trans hp⟩

theorem ticks_sample_quiet :
    ∀ events ∈ ticks_sample, ∀ e ∈ events,
      calls_pause_or_reset (pong_init keyboard_mapping_sample 0 (fun _ => 0)) e = false := by
  have hrow : (pong_init keyboard_mapping_sample 0 (fun _ => 0)).keyboard_mapping 39
      = ['s'.toNat, 'S'.toNat] := rfl
  have hfind : pong_events_key_find ['s'.toNat, 'S'.toNat] key_presses
      = some ⟨KEYSYM_LATIN_1_S, pong_player1_down⟩ := by
    simp [pong_events_key_find, key_presses, KEYSYM_LATIN_1_P, KEYSYM_LATIN_1_Q,
      KEYSYM_LATIN_1_R, KEYSYM_LATIN_1_S, KEYSYM_SPECIAL_NOSYMBOL]
  intro events hevents e he
  simp only [ticks_sample, List.mem_cons, List.mem_singleton, List.not_mem_nil, or_false]
    at hevents
  rcases hevents with h | h <;> subst h <;>
    simp only [List.mem_cons, List.mem_singleton, List.not_mem_nil, or_false] at he <;>
    rcases he with h | h <;> subst h
  · simp only [calls_pause_or_reset, hrow, hfind]
    decide
  · rfl
  · rfl
  · rfl

/-- C8 on the sample keyboard: two paused ticks in which `s` is pressed, the
window resized and `s` released leave the ball, its angle and the paddles where
`pong_init` put them, and the game paused. -/
theorem paused_ticks_keep_ball_and_paddles_witness :
    (pong_init keyboard_mapping_sample 0 (fun _ => 0)).paused = true
    ∧ (pong_run_bodies (pong_init keyboard_mapping_sample 0 (fun _ => 0)) default_frame
        ticks_sample).ball_position
      = (pong_init keyboard_mapping_sample 0 (fun _ => 0)).ball_position
    ∧ (pong_run_bodies (pong_init keyboard_mapping_sample 0 (fun _ => 0)) default_frame
        ticks_sample).ball_angle
      = (pong_init keyboard_mapping_sample 0 (fun _ => 0)).ball_angle
    ∧ (pong_run_bodies (pong_init keyboard_mapping_sample 0 (fun _ => 0)) default_frame
        ticks_sample).players_position
      = (pong_init keyboard_mapping_sample 0 (fun _ => 0)).players_position
    ∧ (pong_run_bodies (pong_init keyboard_mapping_sample 0 (fun _ => 0)) default_frame
        ticks_sample).paused = true :=
  ⟨rfl, paused_ticks_keep_ball_and_paddles (pong_init keyboard_mapping_sample 0 (fun _ => 0))
    default_frame ticks_sample rfl ticks_sample_quiet⟩

/-! ### The frame duration of the `-f` option -/

theorem double_to_integer_of_nonneg (x : ℚ) (h : 0 ≤ x) : double_to_integer x = ⌊x⌋ := by
  simp [double_to_integer, h]

/-- The two fields computed by the case `'f'` for a frequency of at least 2:
no whole second, and the nanoseconds of `10^9 / frequency`. -/
theorem frame_fields (frequency : Nat) (h2 : 2 ≤ frequency) :
    double_to_integer (1.0 / (frequency : ℚ)) = 0
      ∧ double_to_integer (1.0 / (frequency : ℚ) * 1000000000.0 - ((0 : Int) : ℚ))
          = ((1000000000 / frequency : Nat) : Int) := by
  have hf : (2 : ℚ) ≤ (frequency : ℚ) := by exact_mod_cast h2
  have hpos : (0 : ℚ) < (frequency : ℚ) := by linarith
  constructor
  · have hnn : (0 : ℚ) ≤ 1.0 / (frequency : ℚ) := by positivity
    rw [double_to_integer_of_nonneg _ hnn, Int.floor_eq_zero_iff]
    refine ⟨hnn, ?_⟩
    rw [div_lt_iff₀ hpos]
    norm_num
    linarith
  · have he : (1.0 / (frequency : ℚ) * 1000000000.0 - ((0 : Int) : ℚ))
        = ((1000000000 : Nat) : ℚ) / (frequency : ℚ) := by
      norm_num
      field_simp
    have hnn : (0 : ℚ) ≤ ((1000000000 : Nat) : ℚ) / (frequency : ℚ) := by positivity
    rw [he, double_to_integer_of_nonneg _ hnn, Rat.floor_natCast_div_natCast]
    norm_cast

theorem pong_parse_args_f_accepts (args : pong_args) (frequency : Nat) (h2 : 2 ≤ frequency)
    (h9 : frequency ≤ 1000000000) :
    pong_parse_args_f args frequency true
      = .ok { args with frame_duration :=
                { tv_sec := 0, tv_nsec := ((1000000000 / frequency : Nat) : Int) } } := by
  have hne : frequency ≠ 0 := by omega
  have hq : 0 < 1000000000 / frequency := Nat.div_pos h9 (by omega)
  have hq' : ((1000000000 / frequency : Nat) : Int) ≠ 0 := by omega
  obtain ⟨h1, h3⟩ := frame_fields frequency h2
  unfold pong_parse_args_f
  simp only [Bool.true_eq_false, hne, or_self, if_false]
  simp only [h1, h3, hq', and_false, if_false]

theorem pong_parse_args_f_too_fast (args : pong_args) (frequency : Nat)
    (h9 : 1000000000 < frequency) :
    pong_parse_args_f args frequency true = .error fatal.invalid_frequency := by
  have hne : frequency ≠ 0 := by omega
  have hz : 1000000000 / frequency = 0 := Nat.div_eq_of_lt h9
  obtain ⟨h1, h3⟩ := frame_fields frequency (by omega)
  unfold pong_parse_args_f
  simp only [Bool.true_eq_false, hne, or_self, if_false]
  simp only [h1, h3, hz, Nat.cast_zero, and_self, if_true]

/-- C9, as the code has it. For every `fps` from 2 to `10^9` the `-f` option is
accepted and the frame lasts `10^9 / fps` nanoseconds, rounded down, with no
whole second; every `fps` above `10^9` is rejected, as are zero and an argument
that is not a number to its end. -/
theorem pong_parse_args_f_frame (args : pong_args) (frequency : Nat) :
    (2 ≤ frequency → frequency ≤ 1000000000 →
      pong_parse_args_f args frequency true
          = .ok { args with frame_duration :=
                    { tv_sec := 0, tv_nsec := ((1000000000 / frequency : Nat) : Int) } }
        ∧ timespec_nanoseconds { tv_sec := 0, tv_nsec := ((1000000000 / frequency : Nat) : Int) }
          = ⌊(1000000000 : ℚ) / (frequency : ℚ)⌋)
    ∧ (1000000000 < frequency →
      pong_parse_args_f args frequency true = .error fatal.invalid_frequency)
    ∧ pong_parse_args_f args 0 true = .error fatal.invalid_frequency
    ∧ pong_parse_args_f args frequency false = .error fatal.invalid_frequency := by
  refine ⟨?_, pong_parse_args_f_too_fast args frequency, ?_, ?_⟩
  · intro h2 h9
    refine ⟨pong_parse_args_f_accepts args frequency h2 h9, ?_⟩
    have : (1000000000 : ℚ) = ((1000000000 : Nat) : ℚ) := by norm_num
    rw [this, Rat.floor_natCast_div_natCast]
    simp [timespec_nanoseconds]
  · simp [pong_parse_args_f]
  · simp [pong_parse_args_f]

/-- C9 at 60 frames per second: the frame is the default one, 16666666 ns. -/
theorem pong_parse_args_f_frame_witness :
    pong_parse_args_f pong_parse_args_init 60 true = .ok pong_parse_args_init
      ∧ timespec_nanoseconds pong_parse_args_init.frame_duration = 16666666 := by
  have h := ((pong_parse_args_f_frame pong_parse_args_init 60).1 (by decide) (by decide)).1
  exact ⟨h, rfl⟩

/-- C9 fails as stated: the positive frequency `2000000000` is rejected, its
frame would last no nanosecond. -/
theorem pong_parse_args_f_rejects_positive :
    pong_parse_args_f pong_parse_args_init 2000000000 true = .error fatal.invalid_frequency :=
  pong_parse_args_f_too_fast pong_parse_args_init 2000000000 (by decide)

/-- At one frame per second the case `'f'` yields one second and 999999999
nanoseconds: the seconds are subtracted from the nanoseconds as they are. -/
theorem pong_parse_args_f_one :
    pong_parse_args_f pong_parse_args_init 1 true
      = .ok { pong_parse_args_init with
                frame_duration := { tv_sec := 1, tv_nsec := 999999999 } } := by
  have h1 : double_to_integer (1.0 / ((1 : Nat) : ℚ)) = 1 := by
    rw [double_to_integer_of_nonneg _ (by norm_num)]
    norm_num
  have h2 : double_to_integer (1.0 / ((1 : Nat) : ℚ) * 1000000000.0 - ((1 : Int) : ℚ))
      = 999999999 := by
    rw [double_to_integer_of_nonneg _ (by norm_num)]
    norm_num
  unfold pong_parse_args_f
  simp only [Bool.true_eq_false, one_ne_zero, or_self, if_false]
  simp only [h1, h2]
  rfl


/-! ### The straight shot -/

theorem collides_player_1_false (q : pong) (h : -0.75 < q.ball_position ABSCISSA) :
    pong_player_collides_ball q PLAYER_1 = false := by
  have hc : contains (players_bound PLAYER_1).1 (players_bound PLAYER_1).2
      (q.ball_position ABSCISSA) = false := by
    have : ¬ (q.ball_position ABSCISSA ≤ -0.75) := not_le.mpr h
    simp [contains, players_bound, PLAYER_1, this]
  unfold pong_player_collides_ball
  rw [hc]
  rfl

theorem collides_player_2_false (q : pong) (h : q.ball_position ABSCISSA < 0.7) :
    pong_player_collides_ball q PLAYER_2 = false := by
  have hc : contains (players_bound PLAYER_2).1 (players_bound PLAYER_2).2
      (q.ball_position ABSCISSA) = false := by
    have : ¬ (q.ball_position ABSCISSA ≥ 0.7) := not_le.mpr h
    simp [contains, players_bound, PLAYER_2, this]
  unfold pong_player_collides_ball
  rw [hc]
  rfl

theorem collides_player_2_true (q : pong) (hlo : 0.7 ≤ q.ball_position ABSCISSA)
    (hhi : q.ball_position ABSCISSA ≤ 0.75) (hp : q.players_position PLAYER_2 = 0)
    (hy : q.ball_position ORDINATE = 0) (hc : Real.cos q.ball_angle = 1) :
    pong_player_collides_ball q PLAYER_2 = true := by
  unfold pong_player_collides_ball contains players_bound
  rw [hp, hy, hc]
  simp only [PLAYER_2, Fin.isValue, one_ne_zero, if_false, ge_iff_le, hlo, hhi, decide_True,
    Bool.and_self, Bool.true_and, ne_eq, not_false_eq_true, Bool.and_eq_true, decide_eq_true_eq,
    Bool.xor_true, Bool.not_eq_true', decide_eq_false_iff_not, not_lt]
  norm_num

theorem clamp_rest (elapsed : ℝ) : clamp (0 + 0 * elapsed) (-0.9) 0.9 = 0 := by
  unfold clamp
  norm_num

/-- The state after the first two steps of `pong_physic`, in straight flight
with an angle of sine 0. -/
theorem pong_physic_walls_integrate_flight (q : pong) (x a : ℝ) (k : Nat)
    (h : straight_flight q x a k) (hsin : Real.sin a = 0) :
    straight_flight (pong_physic_walls (pong_physic_integrate q (elapsed_seconds default_frame)))
      (x + 0.7 * 0.016666666 * Real.cos a) a k := by
  obtain ⟨p1, p2, s1, s2, c1, c2, bx, bY, ba, rc⟩ := h
  have hy : (pong_physic_integrate q (elapsed_seconds default_frame)).ball_position ORDINATE
      = 0 := by
    rw [pong_physic_integrate_ordinate, bY, ba, hsin]
    ring
  have hw : pong_physic_walls (pong_physic_integrate q (elapsed_seconds default_frame))
      = pong_physic_integrate q (elapsed_seconds default_frame) := by
    unfold pong_physic_walls
    rw [hy]
    norm_num
  rw [hw]
  refine ⟨?_, ?_, s1, s2, c1, c2, ?_, hy, ba, rc⟩
  · simp only [pong_physic_integrate, PLAYER_1, PLAYER_2] at p1 s1 ⊢
    rw [Function.update_noteq (by decide), Function.update_same, p1, s1]
    exact clamp_rest _
  · simp only [pong_physic_integrate, PLAYER_1, PLAYER_2] at p2 s2 ⊢
    rw [Function.update_same, Function.update_noteq (by decide), p2, s2]
    exact clamp_rest _
  · rw [pong_physic_integrate_abscissa, bx, ba, elapsed_seconds_default]
    rfl

/-- A call of `pong_physic` in straight flight, the ball ending between the
paddle bands: only the abscissa of the ball changes. -/
theorem pong_physic_flight (q : pong) (x a : ℝ) (k : Nat) (h : straight_flight q x a k)
    (hsin : Real.sin a = 0) (hlo : -0.75 < x + 0.7 * 0.016666666 * Real.cos a)
    (hhi : x + 0.7 * 0.016666666 * Real.cos a < 0.7) :
    straight_flight (pong_physic q default_frame) (x + 0.7 * 0.016666666 * Real.cos a) a k := by
  have hr := pong_physic_walls_integrate_flight q x a k h hsin
  have hx := hr.2.2.2.2.2.2.1
  unfold pong_physic
  have hplayers : pong_physic_players
      (pong_physic_walls (pong_physic_integrate q (elapsed_seconds default_frame)))
      = pong_physic_walls (pong_physic_integrate q (elapsed_seconds default_frame)) := by
    unfold pong_physic_players
    rw [collides_player_1_false _ (by rw [hx]; exact hlo),
      collides_player_2_false _ (by rw [hx]; exact hhi), hx]
    have h1 : ¬ (x + 0.7 * 0.016666666 * Real.cos a ≤ -1.0) := by
      norm_num at hlo ⊢; linarith
    have h2 : ¬ (x + 0.7 * 0.016666666 * Real.cos a ≥ 0.95) := by
      norm_num at hhi ⊢; linarith
    simp only [Bool.or_self, Bool.false_eq_true, if_false, h1, h2]
  rw [hplayers]
  exact hr

/-- A call of `pong_physic` in straight flight at angle 0, the ball ending in
the band of player 2: the ball is sent back at angle `π`. -/
theorem pong_physic_bounce (q : pong) (x : ℝ) (k : Nat) (h : straight_flight q x 0 k)
    (hlo : 0.7 ≤ x + 0.7 * 0.016666666 * Real.cos 0)
    (hhi : x + 0.7 * 0.016666666 * Real.cos 0 ≤ 0.75) :
    straight_flight (pong_physic q default_frame) (x + 0.7 * 0.016666666 * Real.cos 0)
      Real.pi k := by
  have hr := pong_physic_walls_integrate_flight q x 0 k h Real.sin_zero
  obtain ⟨p1, p2, s1, s2, c1, c2, bx, bY, ba, rc⟩ := hr
  have hcol : pong_player_collides_ball
      (pong_physic_walls (pong_physic_integrate q (elapsed_seconds default_frame))) PLAYER_2
      = true :=
    collides_player_2_true _ (by rw [bx]; exact hlo) (by rw [bx]; exact hhi) p2 bY
      (by rw [ba]; exact Real.cos_zero)
  have hangle : paddle_reflection 0 = Real.pi := by
    unfold paddle_reflection
    have hn : ¬ ((0 : ℝ) < 0.0) := by norm_num
    simp [Real.sin_zero, Real.cos_zero, Real.arccos_neg_one, hn]
  unfold pong_physic pong_physic_players
  rw [hcol]
  simp only [Bool.or_true, if_true]
  refine ⟨p1, p2, s1, s2, c1, c2, bx, bY, ?_, rc⟩
  show paddle_reflection _ = Real.pi
  rw [ba, hangle]

theorem straight_flight_congr (q : pong) (x y a : ℝ) (k : Nat) (h : straight_flight q x a k)
    (hx : x = y) : straight_flight q y a k :=
  hx ▸ h

theorem straight_shot_start_flight (p : pong) :
    straight_flight (straight_shot_start p) 0 0 (p.random_calls + 1) := by
  simp only [straight_flight, straight_shot_start, pong_reset, pong_ball_angle, random, PLAYER_1,
    PLAYER_2, ABSCISSA, ORDINATE]
  norm_num

/-- The first 60 calls: the ball flies to the right, `0.0116666662` a call. -/
theorem straight_shot_outward (p : pong) (n : Nat) (hn : n ≤ 60) :
    straight_flight (pong_physic_times (straight_shot_start p) default_frame n)
      ((n : ℝ) * 0.0116666662) 0 (p.random_calls + 1) := by
  induction n with
  | zero =>
    exact straight_flight_congr _ _ _ _ _ (straight_shot_start_flight p) (by norm_num)
  | succ n ih =>
    have hn' : (n : ℝ) ≤ 59 := by
      have : n ≤ 59 := by omega
      exact_mod_cast this
    have h0 : (0 : ℝ) ≤ (n : ℝ) := Nat.cast_nonneg n
    have hstep := pong_physic_flight _ _ 0 _ (ih (by omega)) Real.sin_zero
      (by rw [Real.cos_zero]; norm_num; nlinarith)
      (by rw [Real.cos_zero]; norm_num; nlinarith)
    refine straight_flight_congr _ _ _ _ _ hstep ?_
    rw [Real.cos_zero]
    push_cast
    ring

/-- The call 61: the ball reaches the band of player 2, whose paddle sends it
back. -/
theorem straight_shot_bounce (p : pong) :
    straight_flight (pong_physic_times (straight_shot_start p) default_frame 61)
      0.7116666382 Real.pi (p.random_calls + 1) := by
  have h60 := straight_shot_outward p 60 (le_refl _)
  have hstep := pong_physic_bounce _ _ _ h60
    (by rw [Real.cos_zero]; norm_num) (by rw [Real.cos_zero]; norm_num)
  refine straight_flight_congr _ _ _ _ _ hstep ?_
  rw [Real.cos_zero]
  norm_num

/-- The calls after the bounce: the ball flies back to the left. -/
theorem straight_shot_return (p : pong) (m : Nat) (hm : m ≤ 35) :
    straight_flight (pong_physic_times (straight_shot_start p) default_frame (61 + m))
      (0.7116666382 - (m : ℝ) * 0.0116666662) Real.pi (p.random_calls + 1) := by
  induction m with
  | zero =>
    exact straight_flight_congr _ _ _ _ _ (straight_shot_bounce p) (by norm_num)
  | succ m ih =>
    have hm' : (m : ℝ) ≤ 34 := by
      have : m ≤ 34 := by omega
      exact_mod_cast this
    have h0 : (0 : ℝ) ≤ (m : ℝ) := Nat.cast_nonneg m
    have hstep := pong_physic_flight _ _ Real.pi _ (ih (by omega)) Real.sin_pi
      (by rw [Real.cos_pi]; norm_num; nlinarith)
      (by rw [Real.cos_pi]; norm_num; nlinarith)
    refine straight_flight_congr _ _ _ _ _ hstep ?_
    rw [Real.cos_pi]
    push_cast
    ring

theorem straight_shot_after_96 (p : pong) :
    straight_flight (pong_physic_times (straight_shot_start p) default_frame 96)
      0.3033333212 Real.pi (p.random_calls + 1) :=
  straight_flight_congr _ _ _ _ _ (straight_shot_return p 35 (le_refl _)) (by norm_num)

/-- C10, as the code has it. From the reset state with the ball at angle 0 and
the game not paused, 96 calls of `pong_physic` with the frame of 16666666 ns
score no point: after 60 calls the ball still travels at angle 0, the call 61
finds it at `(0.7116666382, 0)` on the paddle of player 2 and turns it to angle
`π`, and after 96 calls the score is `0 : 0`, the ball is at `(0.3033333212, 0)`
travelling left, and `random()` has not been called again. -/
theorem straight_shot_is_returned (p : pong) :
    (pong_physic_times (straight_shot_start p) default_frame 60).ball_angle = 0
    ∧ (pong_physic_times (straight_shot_start p) default_frame 61).ball_position ABSCISSA
        = 0.7116666382
    ∧ (pong_physic_times (straight_shot_start p) default_frame 61).ball_angle = Real.pi
    ∧ (pong_physic_times (straight_shot_start p) default_frame 96).players_score PLAYER_1 = 0
    ∧ (pong_physic_times (straight_shot_start p) default_frame 96).players_score PLAYER_2 = 0
    ∧ (pong_physic_times (straight_shot_start p) default_frame 96).ball_position ABSCISSA
        = 0.3033333212
    ∧ (pong_physic_times (straight_shot_start p) default_frame 96).ball_position ORDINATE = 0
    ∧ (pong_physic_times (straight_shot_start p) default_frame 96).ball_angle = Real.pi
    ∧ (pong_physic_times (straight_shot_start p) default_frame 96).random_calls
        = (straight_shot_start p).random_calls := by
  have h60 := straight_shot_outward p 60 (le_refl _)
  have h61 := straight_shot_bounce p
  have h96 := straight_shot_after_96 p
  exact ⟨h60.2.2.2.2.2.2.2.2.1, h61.2.2.2.2.2.2.1, h61.2.2.2.2.2.2.2.2.1, h96.2.2.2.2.1,
    h96.2.2.2.2.2.1, h96.2.2.2.2.2.2.1, h96.2.2.2.2.2.2.2.1, h96.2.2.2.2.2.2.2.2.1,
    h96.2.2.2.2.2.2.2.2.2⟩

/-- C10 fails as stated: from the state of `pong_init` with the ball at angle 0
and the game not paused, after 96 calls of `pong_physic` with the default frame
the score of player 1 is 0, not 1, and the ball is not at abscissa 0. -/
theorem straight_shot_scores_nothing :
    (pong_physic_times (straight_shot_start (pong_init (fun _ => []) 0 (fun _ => 0)))
        default_frame 96).players_score PLAYER_1 = 0
    ∧ (pong_physic_times (straight_shot_start (pong_init (fun _ => []) 0 (fun _ => 0)))
        default_frame 96).players_score PLAYER_1 ≠ 1
    ∧ (pong_physic_times (straight_shot_start (pong_init (fun _ => []) 0 (fun _ => 0)))
        default_frame 96).ball_position ABSCISSA ≠ 0 := by
  have h96 := straight_shot_after_96 (pong_init (fun _ => []) 0 (fun _ => 0))
  refine ⟨h96.2.2.2.2.1, ?_, ?_⟩
  · rw [h96.2.2.2.2.1]
    decide
  · rw [h96.2.2.2.2.2.2.1]
    norm_num

/-! ### The direction condition in the real-number reading

The facts of this section are facts of the reading of `double` as a real number
only. After the paddle reflection the collision test turns on the sign of a
cosine that may be 0; with real numbers that happens at the angles of cosine
exactly 0, in the program it is decided by the rounding of `cos`, `sin` and
`acos`, which this reading does not describe. -/

/-- The branch of `pong_physic` taken when a collision test fires is the paddle
reflection. -/
theorem pong_physic_players_of_collision (q : pong)
    (h : pong_player_collides_ball q PLAYER_1 = true
      ∨ pong_player_collides_ball q PLAYER_2 = true) :
    pong_physic_players q = paddle_reflected q := by
  unfold pong_physic_players paddle_reflected
  rcases h with h | h <;> simp [h]

theorem cos_paddle_reflection (a : ℝ) : Real.cos (paddle_reflection a) = -Real.cos a := by
  have hc : Real.cos (Real.arccos (-Real.cos a)) = -Real.cos a :=
    Real.cos_arccos (by linarith [Real.cos_le_one a]) (by linarith [Real.neg_one_le_cos a])
  unfold paddle_reflection
  by_cases h : Real.sin a < 0.0
  · simp only [h, if_true]
    rw [Real.cos_two_pi_sub, hc]
  · simp only [h, if_false]
    exact hc

/-- The collision test after the paddle reflection: the two geometric
conditions are those of the state before, the direction is read on the opposite
cosine. -/
theorem pong_player_collides_ball_reflected (q : pong) (player : Fin 2) :
    pong_player_collides_ball (paddle_reflected q) player
      = (contains (players_bound player).1 (players_bound player).2 (q.ball_position ABSCISSA)
          && contains (q.players_position player - 0.125) (q.players_position player + 0.125)
              (q.ball_position ORDINATE)
          && xor (decide (-Real.cos q.ball_angle < 0.0)) (decide (player ≠ 0))) := by
  unfold pong_player_collides_ball paddle_reflected
  simp only [cos_paddle_reflection]

/-- What a firing collision test says: both geometric conditions hold, and the
cosine of the angle is negative for player 1, not negative for player 2. -/
theorem pong_player_collides_ball_true (q : pong) (player : Fin 2)
    (h : pong_player_collides_ball q player = true) :
    (contains (players_bound player).1 (players_bound player).2 (q.ball_position ABSCISSA)
        && contains (q.players_position player - 0.125) (q.players_position player + 0.125)
            (q.ball_position ORDINATE)) = true
      ∧ (player = 0 → Real.cos q.ball_angle < 0)
      ∧ (player ≠ 0 → 0 ≤ Real.cos q.ball_angle) := by
  unfold pong_player_collides_ball at h
  rw [Bool.and_eq_true] at h
  obtain ⟨hg, hd⟩ := h
  refine ⟨hg, ?_, ?_⟩
  · intro hp
    simp only [hp, ne_eq, not_true_eq_false, decide_False, Bool.xor_false,
      decide_eq_true_eq] at hd
    norm_num at hd
    exact hd
  · intro hp
    simp only [ne_eq, hp, not_false_eq_true, decide_True, Bool.xor_true, Bool.not_eq_true',
      decide_eq_false_iff_not] at hd
    norm_num at hd
    exact hd

/-- Over the reals, in every state in which the collision test fires for a
player, the test for the same player on the state after the paddle reflection
(ball and paddles where they were) is false exactly when the player is player 1
or the cosine of the ball angle is not 0: for player 1 always, for player 2
unless the cosine is exactly 0. -/
theorem bounce_not_triggered_again (q : pong) (player : Fin 2)
    (h : pong_player_collides_ball q player = true) :
    pong_player_collides_ball (paddle_reflected q) player = false
      ↔ (player = PLAYER_1 ∨ Real.cos q.ball_angle ≠ 0) := by
  obtain ⟨hg, h1, h2⟩ := pong_player_collides_ball_true q player h
  rw [pong_player_collides_ball_reflected, hg, Bool.true_and]
  by_cases hp : player = 0
  · have hc := h1 hp
    have hn : ¬ (-Real.cos q.ball_angle < 0.0) := by norm_num; linarith
    simp [hp, hn, PLAYER_1]
  · have hc := h2 hp
    have hiff : (-Real.cos q.ball_angle < 0.0) ↔ Real.cos q.ball_angle ≠ 0 := by
      constructor
      · intro hlt heq
        rw [heq] at hlt
        norm_num at hlt
      · intro hne
        have : 0 < Real.cos q.ball_angle := lt_of_le_of_ne hc (Ne.symm hne)
        norm_num
        exact this
    simp only [ne_eq, hp, not_false_eq_true, decide_True, Bool.xor_true, Bool.not_eq_false',
      decide_eq_true_eq, PLAYER_1, false_or]
    exact hiff

theorem pong_in_play_fields (x y angle : ℝ) (score_1 score_2 : Nat) :
    (pong_in_play x y angle score_1 score_2).ball_position ABSCISSA = x
      ∧ (pong_in_play x y angle score_1 score_2).ball_position ORDINATE = y
      ∧ (pong_in_play x y angle score_1 score_2).players_position PLAYER_2 = 0
      ∧ (pong_in_play x y angle score_1 score_2).ball_angle = angle := by
  refine ⟨?_, ?_, ?_, rfl⟩
  · simp [pong_in_play, ABSCISSA]
  · simp [pong_in_play, ORDINATE]
  · simp only [pong_in_play, pong_init, pong_reset, pong_ball_angle, random, PLAYER_1, PLAYER_2]
    norm_num

theorem pong_in_play_on_paddle_2 :
    pong_player_collides_ball (pong_in_play 0.72 0 0 0 0) PLAYER_2 = true := by
  obtain ⟨hx, hy, hp, ha⟩ := pong_in_play_fields 0.72 0 0 0 0
  exact collides_player_2_true _ (by rw [hx]; norm_num) (by rw [hx]; norm_num) hp hy
    (by rw [ha]; exact Real.cos_zero)

/-- Over the reals, at a concrete state: the ball at `(0.72, 0)` travelling at
angle 0 is on the paddle of player 2; after the reflection the test for player 2
is false. -/
theorem bounce_not_triggered_again_witness :
    pong_player_collides_ball (pong_in_play 0.72 0 0 0 0) PLAYER_2 = true
    ∧ pong_player_collides_ball (paddle_reflected (pong_in_play 0.72 0 0 0 0)) PLAYER_2
        = false :=
  ⟨pong_in_play_on_paddle_2,
    (bounce_not_triggered_again (pong_in_play 0.72 0 0 0 0) PLAYER_2
      pong_in_play_on_paddle_2).mpr
      (Or.inr (by rw [(pong_in_play_fields 0.72 0 0 0 0).2.2.2, Real.cos_zero]; norm_num))⟩

/-- The collision test of player 2 fires on a ball in its band, on its paddle,
whose angle has cosine 0. -/
theorem collides_player_2_vertical (q : pong) (hlo : 0.7 ≤ q.ball_position ABSCISSA)
    (hhi : q.ball_position ABSCISSA ≤ 0.75) (hp : q.players_position PLAYER_2 = 0)
    (hy : q.ball_position ORDINATE = 0) (hc : Real.cos q.ball_angle = 0) :
    pong_player_collides_ball q PLAYER_2 = true := by
  unfold pong_player_collides_ball contains players_bound
  rw [hp, hy, hc]
  simp only [PLAYER_2, Fin.isValue, one_ne_zero, if_false, ge_iff_le, hlo, hhi, decide_True,
    Bool.and_self, Bool.true_and, ne_eq, not_false_eq_true, Bool.and_eq_true, decide_eq_true_eq,
    Bool.xor_true, Bool.not_eq_true', decide_eq_false_iff_not, not_lt]
  norm_num

/-- Over the reals, at the angle `π / 2`, whose cosine is exactly 0: the ball at
`(0.72, 0)` is on the paddle of player 2 and the test for player 2 fires before
and after the paddle reflection. -/
theorem bounce_triggered_again_when_vertical :
    pong_player_collides_ball (pong_in_play 0.72 0 (Real.pi / 2) 0 0) PLAYER_2 = true
    ∧ pong_player_collides_ball (paddle_reflected (pong_in_play 0.72 0 (Real.pi / 2) 0 0))
        PLAYER_2 = true := by
  obtain ⟨hx, hy, hp, ha⟩ := pong_in_play_fields 0.72 0 (Real.pi / 2) 0 0
  constructor
  · exact collides_player_2_vertical _ (by rw [hx]; norm_num) (by rw [hx]; norm_num) hp hy
      (by rw [ha]; exact Real.cos_pi_div_two)
  · refine collides_player_2_vertical _ ?_ ?_ hp hy ?_
    · show (0.7 : ℝ) ≤ (pong_in_play 0.72 0 (Real.pi / 2) 0 0).ball_position ABSCISSA
      rw [hx]; norm_num
    · show (pong_in_play 0.72 0 (Real.pi / 2) 0 0).ball_position ABSCISSA ≤ (0.75 : ℝ)
      rw [hx]; norm_num
    · show Real.cos (paddle_reflection (pong_in_play 0.72 0 (Real.pi / 2) 0 0).ball_angle) = 0
      rw [cos_paddle_reflection, ha, Real.cos_pi_div_two, neg_zero]

end PongGame
